import Mathlib

/-!
Verification of the rhythm-race game core (note lifecycle, AI scoring,
spawn gating, score clamping, difficulty ramp, position smoothing, and
the countdown/finish scheduling) against its natural-language
specification.  All definitions are shallow embeddings of the source:
the per-frame loop body of `NotesManager` (src/components/Road.tsx),
the score handlers and scheduled effects of the `App` component, the
ramp effect, and the `GameScene` per-frame position smoothing.
-/

namespace RhythmRace

/-- A falling note, mirroring the `Note` interface of `NotesManager`
(Road.tsx): id, lane in [0,3], z position, lane color, the AI decision
fixed at spawn (`willAiHit`) and the `aiProcessed` latch. -/
structure Note where
  id : Nat
  lane : Fin 4
  z : ℚ
  color : String
  willAiHit : Bool
  aiProcessed : Bool
deriving DecidableEq

/-- `HIT_WINDOW = 0.8`, the z-axis tolerance for hitting a note (Road.tsx). -/
def HIT_WINDOW : ℚ := 8 / 10

/-- `laneColors` array of Road.tsx. -/
def laneColors : Fin 4 → String
  | 0 => "#fffb00"
  | 1 => "#ff003c"
  | 2 => "#0072ff"
  | 3 => "#00ff42"

/-- Per-frame inputs to the movement/collision pass of the
`NotesManager` `useFrame` body: the hit line, the note speed and the
frame delta from `config`, and the currently pressed lane keys. -/
structure StepCtx where
  hitLineZ : ℚ
  speed : ℚ
  delta : ℚ
  pressedKeys : Fin 4 → Bool

/-- `newZ = note.z + config.speed * delta` (Road.tsx line 334). -/
def newZ (c : StepCtx) (n : Note) : ℚ := n.z + c.speed * c.delta

/-- `inHitZone = |newZ - hitLineZ| < HIT_WINDOW` (Road.tsx lines 338-339). -/
def inHitZone (c : StepCtx) (n : Note) : Bool :=
  decide (|newZ c n - c.hitLineZ| < HIT_WINDOW)

/-- The AI advance branch fires (`onAiScoreUpdate(10)`) iff
`!currentAiProcessed && note.willAiHit && newZ >= hitLineZ`
(Road.tsx line 341). -/
def aiFire1 (c : StepCtx) (n : Note) : Bool :=
  !n.aiProcessed && n.willAiHit && decide (c.hitLineZ ≤ newZ c n)

/-- `currentAiProcessed` after the AI advance branch (Road.tsx line 343). -/
def aiProc1 (c : StepCtx) (n : Note) : Bool :=
  n.aiProcessed || aiFire1 c n

/-- The player hit condition:
`inHitZone && pressedKeys[note.lane] && !keysUsedThisFrame.current[note.lane]`
(Road.tsx line 346). -/
def isHit (c : StepCtx) (ku : Fin 4 → Bool) (n : Note) : Bool :=
  inHitZone c n && c.pressedKeys n.lane && !ku n.lane

/-- The AI re-check inside the player hit branch:
`!currentAiProcessed && note.willAiHit` (Road.tsx line 351). -/
def aiFire2 (c : StepCtx) (ku : Fin 4 → Bool) (n : Note) : Bool :=
  isHit c ku n && (!aiProc1 c n && n.willAiHit)

/-- `currentAiProcessed` after both branches (Road.tsx line 353). -/
def aiProc2 (c : StepCtx) (ku : Fin 4 → Bool) (n : Note) : Bool :=
  aiProc1 c n || aiFire2 c ku n

/-- The miss condition: `keep && newZ > hitLineZ + HIT_WINDOW`
(Road.tsx line 360); `keep` is false only if the hit branch fired. -/
def isMiss (c : StepCtx) (ku : Fin 4 → Bool) (n : Note) : Bool :=
  !isHit c ku n && decide (c.hitLineZ + HIT_WINDOW < newZ c n)

/-- Result of processing one note in one frame: the updated
`keysUsedThisFrame`, the kept note (none if removed), the number of
`onAiScoreUpdate(10)` calls, the hit/miss feedback flags, and the
player score delta passed to `onScoreUpdate`. -/
structure StepNoteOut where
  keysUsed : Fin 4 → Bool
  kept : Option Note
  aiFires : Nat
  playerHit : Bool
  playerMiss : Bool
  playerDelta : Int

/-- One iteration of the `for (const note of prev)` loop of the
movement/collision pass (Road.tsx lines 333-369). -/
def stepNote (c : StepCtx) (ku : Fin 4 → Bool) (n : Note) : StepNoteOut :=
  { keysUsed := if isHit c ku n then Function.update ku n.lane true else ku
    kept :=
      if isHit c ku n || isMiss c ku n then none
      else some { n with z := newZ c n, aiProcessed := aiProc2 c ku n }
    aiFires := (if aiFire1 c n then 1 else 0) + (if aiFire2 c ku n then 1 else 0)
    playerHit := isHit c ku n
    playerMiss := isMiss c ku n
    playerDelta := if isHit c ku n then 10 else if isMiss c ku n then -5 else 0 }

theorem aiFire2_false_of_aiFire1 (c : StepCtx) (ku : Fin 4 → Bool) (n : Note)
    (h : aiFire1 c n = true) : aiFire2 c ku n = false := by
  simp [aiFire2, aiProc1, h]

theorem stepNote_aiFires_le_one (c : StepCtx) (ku : Fin 4 → Bool) (n : Note) :
    (stepNote c ku n).aiFires ≤ 1 := by
  simp only [stepNote]
  by_cases h1 : aiFire1 c n = true
  · simp [h1, aiFire2_false_of_aiFire1 c ku n h1]
  · simp only [Bool.not_eq_true] at h1
    simp only [h1, Bool.false_eq_true, if_false, Nat.zero_add]
    split <;> omega

theorem aiFire1_false_of_processed (c : StepCtx) (n : Note)
    (h : n.aiProcessed = true) : aiFire1 c n = false := by
  simp [aiFire1, h]

theorem stepNote_processed (c : StepCtx) (ku : Fin 4 → Bool) (n : Note)
    (h : n.aiProcessed = true) :
    (stepNote c ku n).aiFires = 0 ∧
      ∀ n', (stepNote c ku n).kept = some n' → n'.aiProcessed = true := by
  have h1 : aiFire1 c n = false := aiFire1_false_of_processed c n h
  have h2 : aiFire2 c ku n = false := by
    simp [aiFire2, aiProc1, h]
  constructor
  · simp [stepNote, h1, h2]
  · intro n' hn'
    simp only [stepNote] at hn'
    split at hn'
    · exact absurd hn' (by simp)
    · have : n'.aiProcessed = aiProc2 c ku n := by
        cases hn'
        rfl
      rw [this]
      simp [aiProc2, aiProc1, h]

theorem stepNote_kept_processed_of_fire (c : StepCtx) (ku : Fin 4 → Bool)
    (n : Note) (h : 1 ≤ (stepNote c ku n).aiFires) :
    ∀ n', (stepNote c ku n).kept = some n' → n'.aiProcessed = true := by
  intro n' hn'
  have hfire : aiFire1 c n = true ∨ aiFire2 c ku n = true := by
    by_contra hc
    push_neg at hc
    simp only [Bool.not_eq_true] at hc
    simp [stepNote, hc.1, hc.2] at h
  simp only [stepNote] at hn'
  split at hn'
  · exact absurd hn' (by simp)
  · have : n'.aiProcessed = aiProc2 c ku n := by
      cases hn'
      rfl
    rw [this]
    rcases hfire with hf | hf
    · simp [aiProc2, aiProc1, hf]
    · simp [aiProc2, hf]

/-- A note's lifetime: the sequence of frames it lives through, each
frame supplying the step context and the `keysUsedThisFrame` state the
note observes at its loop iteration; returns the total number of
`onAiScoreUpdate(10)` calls fired for this note over its lifetime. -/
def runNote : List (StepCtx × (Fin 4 → Bool)) → Option Note → Nat
  | _, none => 0
  | [], some _ => 0
  | p :: ps, some n =>
    (stepNote p.1 p.2 n).aiFires + runNote ps (stepNote p.1 p.2 n).kept

theorem runNote_none (ps : List (StepCtx × (Fin 4 → Bool))) :
    runNote ps none = 0 := by
  cases ps <;> rfl

theorem runNote_processed :
    ∀ (ps : List (StepCtx × (Fin 4 → Bool))) (n : Note),
      n.aiProcessed = true → runNote ps (some n) = 0 := by
  intro ps
  induction ps with
  | nil => intro n _; rfl
  | cons p ps ih =>
    intro n h
    have hz := stepNote_processed p.1 p.2 n h
    simp only [runNote, hz.1, Nat.zero_add]
    cases hk : (stepNote p.1 p.2 n).kept with
    | none => exact runNote_none ps
    | some n' => exact ih n' (hz.2 n' hk)

theorem runNote_le_one :
    ∀ (ps : List (StepCtx × (Fin 4 → Bool))) (n : Note),
      runNote ps (some n) ≤ 1 := by
  intro ps
  induction ps with
  | nil => intro n; exact Nat.zero_le 1
  | cons p ps ih =>
    intro n
    have hle := stepNote_aiFires_le_one p.1 p.2 n
    simp only [runNote]
    cases hk : (stepNote p.1 p.2 n).kept with
    | none =>
      rw [runNote_none ps]
      omega
    | some n' =>
      by_cases hf : 1 ≤ (stepNote p.1 p.2 n).aiFires
      · have hz : runNote ps (some n') = 0 :=
          runNote_processed ps n' (stepNote_kept_processed_of_fire p.1 p.2 n hf n' hk)
        omega
      · have := ih n'
        omega

/-- Accumulated result of the whole movement/collision pass
(`setNotes(prev => ...)`, Road.tsx lines 330-371): the final
`keysUsedThisFrame`, the surviving notes, the number of player hits
resolved per lane, the number of AI score events and the number of
miss events. -/
structure PassOut where
  keysUsed : Fin 4 → Bool
  notes : List Note
  laneHits : Fin 4 → Nat
  aiFires : Nat
  missCount : Nat

/-- The movement/collision pass, threading `keysUsedThisFrame` through
the notes in order, exactly like the `for` loop of Road.tsx. -/
def stepNotes (c : StepCtx) : (Fin 4 → Bool) → List Note → PassOut
  | ku, [] =>
    { keysUsed := ku, notes := [], laneHits := fun _ => 0, aiFires := 0, missCount := 0 }
  | ku, n :: ns =>
    let o := stepNote c ku n
    let r := stepNotes c o.keysUsed ns
    { keysUsed := r.keysUsed
      notes := o.kept.toList ++ r.notes
      laneHits := fun l =>
        (if o.playerHit = true ∧ n.lane = l then 1 else 0) + r.laneHits l
      aiFires := o.aiFires + r.aiFires
      missCount := (if o.playerMiss = true then 1 else 0) + r.missCount }

theorem isHit_lane_unused (c : StepCtx) (ku : Fin 4 → Bool) (n : Note)
    (h : isHit c ku n = true) : ku n.lane = false := by
  simp only [isHit, Bool.and_eq_true, Bool.not_eq_true'] at h
  exact h.2

theorem stepNote_keysUsed_mono (c : StepCtx) (ku : Fin 4 → Bool) (n : Note)
    (l : Fin 4) (h : ku l = true) : (stepNote c ku n).keysUsed l = true := by
  simp only [stepNote]
  split
  · by_cases hl : n.lane = l
    · rw [hl, Function.update_same]
    · rw [Function.update_noteq (fun hc => hl hc.symm)]
      exact h
  · exact h

theorem stepNote_keysUsed_of_hit (c : StepCtx) (ku : Fin 4 → Bool) (n : Note)
    (h : (stepNote c ku n).playerHit = true) :
    (stepNote c ku n).keysUsed n.lane = true := by
  simp only [stepNote] at h ⊢
  rw [if_pos h, Function.update_same]

theorem stepNotes_laneHits_used (c : StepCtx) :
    ∀ (ns : List Note) (ku : Fin 4 → Bool) (l : Fin 4),
      ku l = true → (stepNotes c ku ns).laneHits l = 0 := by
  intro ns
  induction ns with
  | nil => intro ku l _; rfl
  | cons n ns ih =>
    intro ku l h
    simp only [stepNotes]
    have hrest := ih (stepNote c ku n).keysUsed l
      (stepNote_keysUsed_mono c ku n l h)
    rw [hrest]
    have hhit : ¬ ((stepNote c ku n).playerHit = true ∧ n.lane = l) := by
      rintro ⟨hh, hl⟩
      have := isHit_lane_unused c ku n (by simpa [stepNote] using hh)
      rw [hl] at this
      rw [this] at h
      exact Bool.false_ne_true h
    rw [if_neg hhit]

theorem stepNotes_laneHits_le_one (c : StepCtx) :
    ∀ (ns : List Note) (ku : Fin 4 → Bool) (l : Fin 4),
      (stepNotes c ku ns).laneHits l ≤ 1 := by
  intro ns
  induction ns with
  | nil => intro ku l; simp [stepNotes]
  | cons n ns ih =>
    intro ku l
    simp only [stepNotes]
    by_cases hc : (stepNote c ku n).playerHit = true ∧ n.lane = l
    · have hku : (stepNote c ku n).keysUsed l = true := by
        rw [← hc.2]
        exact stepNote_keysUsed_of_hit c ku n hc.1
      rw [stepNotes_laneHits_used c ns (stepNote c ku n).keysUsed l hku]
      rw [if_pos hc]
    · rw [if_neg hc]
      have := ih (stepNote c ku n).keysUsed l
      omega

/-- The random draws consumed by one spawn event of the `NotesManager`
`useFrame` body: the `Math.random() < 0.20` roll for the double spawn,
the first-lane roll `Math.floor(Math.random() * 4)`, the offset roll
`Math.floor(Math.random() * 3)` for the second lane, and one
`Math.random()` roll per spawned note for `willAiHit`.  All `ℚ` rolls
stand for a uniform draw from [0,1). -/
structure SpawnRand where
  doubleRoll : ℚ
  lane1Roll : Fin 4
  lane2Roll : Fin 3
  aiRolls : Nat → ℚ

/-- `lane2 = (lane1 + 1 + random(0..2)) % 4` (Road.tsx line 310). -/
def lane2Of (lane1 : Fin 4) (off : Fin 3) : Fin 4 :=
  ⟨(lane1.val + 1 + off.val) % 4, Nat.mod_lt _ (by norm_num)⟩

/-- The spawn lanes chosen by one spawn event (Road.tsx lines 304-314):
double spawn with probability 20% only once `timeLeft <= 79`, otherwise
one uniformly random lane. -/
def spawnLanes (timeLeft : Int) (r : SpawnRand) : List (Fin 4) :=
  if timeLeft ≤ 79 ∧ r.doubleRoll < 20 / 100 then
    [r.lane1Roll, lane2Of r.lane1Roll r.lane2Roll]
  else
    [r.lane1Roll]

/-- A freshly spawned note (Road.tsx lines 316-323):
`willAiHit = Math.random() < 0.70`, `aiProcessed = false`. -/
def mkNote (id : Nat) (lane : Fin 4) (spawnZ : ℚ) (aiRoll : ℚ) : Note :=
  { id := id
    lane := lane
    z := spawnZ
    color := laneColors lane
    willAiHit := decide (aiRoll < 70 / 100)
    aiProcessed := false }

/-- Helper for `spawnNotes`: maps the lanes to notes with the running
`nextId.current++` counter and one `willAiHit` roll per note. -/
def spawnNotesGo (nextId : Nat) (spawnZ : ℚ) (aiRolls : Nat → ℚ) :
    Nat → List (Fin 4) → List Note
  | _, [] => []
  | i, lane :: rest =>
    mkNote (nextId + i) lane spawnZ (aiRolls i) ::
      spawnNotesGo nextId spawnZ aiRolls (i + 1) rest

/-- `newNotesToSpawn = spawnLanes.map(lane => ({id: nextId.current++, ...}))`
(Road.tsx lines 316-323); each note draws its own `willAiHit` roll. -/
def spawnNotes (nextId : Nat) (spawnZ : ℚ) (timeLeft : Int) (r : SpawnRand) :
    List Note :=
  spawnNotesGo nextId spawnZ r.aiRolls 0 (spawnLanes timeLeft r)

/-- `isNearEnd = timeLeft <= 3` (Road.tsx line 298). -/
def isNearEnd (timeLeft : Int) : Bool := timeLeft ≤ 3

/-- `isMidRacePause = timeLeft <= 61 && timeLeft > 58` (Road.tsx line 300). -/
def isMidRacePause (timeLeft : Int) : Bool :=
  decide (timeLeft ≤ 61) && decide (58 < timeLeft)

/-- `canSpawn = timeLeft > 0 && !isNearEnd && !isMidRacePause`
(Road.tsx line 301). -/
def canSpawn (timeLeft : Int) : Bool :=
  decide (0 < timeLeft) && !isNearEnd timeLeft && !isMidRacePause timeLeft

/-- The per-frame state owned by `NotesManager`: the active notes, the
`lastSpawnTime` ref and the `nextId` ref. -/
structure NMState where
  notes : List Note
  lastSpawnTime : ℚ
  nextId : Nat
deriving DecidableEq

/-- The inputs of one `useFrame` call of `NotesManager`: the `isRacing`
and `timeLeft` props, the clock and delta, the `config` values, the
pressed keys and the random draws of a potential spawn event. -/
structure FrameIn where
  isRacing : Bool
  currentTime : ℚ
  delta : ℚ
  timeLeft : Int
  interval : ℚ
  speed : ℚ
  spawnZ : ℚ
  hitLineZ : ℚ
  pressedKeys : Fin 4 → Bool
  rand : SpawnRand

/-- The spawn trigger: `canSpawn && currentTime - lastSpawnTime.current >
config.interval` (Road.tsx line 303). -/
def doSpawnB (inp : FrameIn) (s : NMState) : Bool :=
  canSpawn inp.timeLeft && decide (inp.interval < inp.currentTime - s.lastSpawnTime)

/-- An empty pass result, for the not-racing early return. -/
def emptyPass (ku : Fin 4 → Bool) : PassOut :=
  { keysUsed := ku, notes := [], laneHits := fun _ => 0, aiFires := 0, missCount := 0 }

/-- One full `useFrame` call of `NotesManager` (Road.tsx lines 277-371):
early return when not racing (notes untouched); otherwise reset
`keysUsedThisFrame`, spawn when permitted, then run the
movement/collision pass over all notes (the spawn `setNotes` is queued
before the movement `setNotes`, so new notes move in the same frame). -/
def notesFrame (inp : FrameIn) (s : NMState) : NMState × PassOut :=
  if inp.isRacing = false then
    (s, emptyPass (fun _ => false))
  else
    let spawned :=
      if doSpawnB inp s then spawnNotes s.nextId inp.spawnZ inp.timeLeft inp.rand
      else []
    let lastSpawnTime := if doSpawnB inp s then inp.currentTime else s.lastSpawnTime
    let c : StepCtx :=
      { hitLineZ := inp.hitLineZ, speed := inp.speed, delta := inp.delta
        pressedKeys := inp.pressedKeys }
    let out := stepNotes c (fun _ => false) (s.notes ++ spawned)
    ({ notes := out.notes, lastSpawnTime := lastSpawnTime
       nextId := s.nextId + spawned.length }, out)

/-- `handleScoreUpdate`: `setPlayerScore(p => Math.max(0, p + amt))`
(App, lines 438-445). -/
def handleScoreUpdate (p : Int) (amt : Int) : Int := max 0 (p + amt)

/-- The AI score callback: `(amt) => setAiScore(p => Math.max(0, p + amt))`
(App, line 584). -/
def onAiScoreUpdate (p : Int) (amt : Int) : Int := max 0 (p + amt)

/-- `progression = Math.min(elapsed / 80000, 1)` (App ramp effect, line 397). -/
def rampProgression (elapsed : ℚ) : ℚ := min (elapsed / 80000) 1

/-- `noteSpeed = 35 + progression * 25` (App ramp effect, line 398). -/
def rampNoteSpeed (elapsed : ℚ) : ℚ := 35 + rampProgression elapsed * 25

/-- `spawnInterval = 0.8 - progression * 0.3` (App ramp effect, line 399). -/
def rampSpawnInterval (elapsed : ℚ) : ℚ :=
  8 / 10 - rampProgression elapsed * (3 / 10)

/-- `THREE.MathUtils.lerp(x, y, t) = (1 - t) * x + t * y`, the (unclamped)
linear interpolation the `GameScene` frame handler calls. -/
def lerp (x y t : ℚ) : ℚ := (1 - t) * x + t * y

/-- The smoothed car offsets owned by `GameScene` (`playerZ`, `aiZ`). -/
structure SceneOff where
  player : ℚ
  ai : ℚ
deriving DecidableEq

/-- One `useFrame` call of `GameScene` (part_003 lines 114-133):
`scoreDiff = playerScore - aiScore`,
`normalizedDiff = Math.max(-1, Math.min(1, scoreDiff / 200))`,
`playerTargetZ = normalizedDiff * 1.2`, `aiTargetZ = -normalizedDiff * 1.2`,
then `lerp(current, target, delta * 3)` on both offsets. -/
def gameSceneStep (playerScore aiScore : Int) (delta : ℚ) (off : SceneOff) :
    SceneOff :=
  let scoreDiff : ℚ := (playerScore : ℚ) - (aiScore : ℚ)
  let normalizedDiff := max (-1) (min 1 (scoreDiff / 200))
  let playerTargetZ := normalizedDiff * (12 / 10)
  let aiTargetZ := -normalizedDiff * (12 / 10)
  { player := lerp off.player playerTargetZ (delta * 3)
    ai := lerp off.ai aiTargetZ (delta * 3) }

/-- The race outcome computed by the finish-delay callback (App,
lines 432-434). -/
inductive GameResult where
  | win : GameResult
  | lose : GameResult
  | draw : GameResult
deriving DecidableEq

/-- The actions of the deferred callbacks scheduled by the App: the
outer countdown-start `setTimeout` (3000 ms, App line 365), the inner
countdown image steps and the go step (App lines 368-378), and the
finish-delay result computation (App lines 427-435). -/
inductive CbAction where
  | startSeq : CbAction
  | showImg : String → CbAction
  | goRacing : CbAction
  | finishResult : Int → Int → CbAction
deriving DecidableEq

/-- A scheduled callback: the `raceId` generation of the countdown
effect run that created it, its firing time, its action, and whether it
was pushed into that effect run's `timers` array (only those are
cleared by the effect cleanup, App line 380). -/
structure Cb where
  gen : Nat
  fireAt : Int
  action : CbAction
  tracked : Bool
deriving DecidableEq

/-- The slice of App race state that the deferred callbacks mutate,
plus the queue of still-pending callbacks. -/
structure AppSchedState where
  raceId : Nat
  isRacing : Bool
  countdownImg : Option String
  isGameFinished : Bool
  gameResult : Option GameResult
  pending : List Cb
deriving DecidableEq

/-- The countdown-sequence effect body (App lines 358-379): clears the
countdown image, stops racing, and schedules the countdown-start
timeout for 3000 ms later.  That outer timeout is NOT pushed into the
`timers` array, so it is not `tracked`. -/
def countdownEffectRun (t : Int) (st : AppSchedState) : AppSchedState :=
  { st with
    countdownImg := none
    isRacing := false
    pending := st.pending ++ [⟨st.raceId, t + 3000, CbAction.startSeq, false⟩] }

/-- The countdown-sequence effect cleanup (App line 380):
`timers.forEach(t => clearTimeout(t))` — it cancels only the callbacks
that the generation-`g` effect run pushed into its `timers` array. -/
def countdownEffectCleanup (g : Nat) (st : AppSchedState) : AppSchedState :=
  { st with pending := st.pending.filter fun c => !(c.tracked && c.gen == g) }

/-- `resetGameState` (App lines 305-336): resets the race flags and
increments `raceId`.  It cancels no pending timeouts itself. -/
def resetGameState (st : AppSchedState) : AppSchedState :=
  { st with
    raceId := st.raceId + 1
    isRacing := false
    countdownImg := none
    isGameFinished := false
    gameResult := none }

/-- A reset while the RACE scene is mounted (e.g. the Replay button):
`resetGameState` runs, then — because `raceId` changed — React runs the
countdown effect cleanup for the old generation and re-runs the effect
for the new one. -/
def replayAt (t : Int) (st : AppSchedState) : AppSchedState :=
  countdownEffectRun t (countdownEffectCleanup st.raceId (resetGameState st))

/-- The four inner timeouts pushed into `timers` when the
countdown-start callback fires (App lines 368-378). -/
def startSeqTimers (g : Nat) (t : Int) : List Cb :=
  [⟨g, t + 1000, CbAction.showImg "2.png", true⟩,
   ⟨g, t + 2000, CbAction.showImg "1.png", true⟩,
   ⟨g, t + 3000, CbAction.showImg "Go.png", true⟩,
   ⟨g, t + 4000, CbAction.goRacing, true⟩]

/-- What each callback does when it fires.  None of them checks the
current `raceId` against the generation it was scheduled under. -/
def runAction (c : Cb) (st : AppSchedState) : AppSchedState :=
  match c.action with
  | CbAction.startSeq =>
      { st with
        countdownImg := some "3.png"
        pending := st.pending ++ startSeqTimers c.gen c.fireAt }
  | CbAction.showImg s => { st with countdownImg := some s }
  | CbAction.goRacing => { st with countdownImg := none, isRacing := true }
  | CbAction.finishResult p a =>
      { st with
        isGameFinished := true
        isRacing := false
        gameResult :=
          some (if a < p then GameResult.win
                else if p < a then GameResult.lose
                else GameResult.draw) }

/-- Fire a pending callback: remove it from the queue and run it. -/
def fireCb (c : Cb) (st : AppSchedState) : AppSchedState :=
  runAction c { st with pending := st.pending.erase c }

/-- `handleFinishLinePassed` (App lines 426-436): schedules the result
computation 3000 ms later; the timeout id is discarded, so this
callback can never be cancelled, and it carries no generation check. -/
def handleFinishLinePassed (t : Int) (pScore aScore : Int) (st : AppSchedState) :
    AppSchedState :=
  { st with
    pending := st.pending ++ [⟨st.raceId, t + 3000, CbAction.finishResult pScore aScore, false⟩] }

/-- The scheduler state before any race: nothing pending. -/
def initialSched : AppSchedState :=
  { raceId := 0, isRacing := false, countdownImg := none
    isGameFinished := false, gameResult := none, pending := [] }

/-- The failing scenario for the stale-callback claim: a reset at time 0
(entering the race) followed by a second reset at time 1000 (e.g. Replay
pressed again) while the first generation's countdown-start timeout is
still pending. -/
def c5State : AppSchedState := replayAt 1000 (replayAt 0 initialSched)

/-- The stale generation-1 countdown-start callback. -/
def c5Stale : Cb := ⟨1, 3000, CbAction.startSeq, false⟩

theorem foldl_clamped_nonneg :
    ∀ (ds : List Int) (p : Int), 0 ≤ p → 0 ≤ ds.foldl handleScoreUpdate p := by
  intro ds
  induction ds with
  | nil => intro p h; simpa using h
  | cons d ds ih =>
    intro p _
    simp only [List.foldl_cons]
    refine ih _ ?_
    unfold handleScoreUpdate
    exact le_max_left 0 _

theorem onAiScoreUpdate_eq : onAiScoreUpdate = handleScoreUpdate := rfl

/-- C1: for every note, `aiProcessed` flips false→true at most once and
the AI +10 fires at most once per note: over any lifetime (`runNote`,
iterating the Road.tsx loop body over the frames the note lives
through) the number of `onAiScoreUpdate(10)` calls is at most 1, and
within a single tick both the advance branch and the hit-branch
re-check together fire at most once. -/
theorem ai_scores_at_most_once_per_note
    (ps : List (StepCtx × (Fin 4 → Bool))) (n : Note)
    (c : StepCtx) (ku : Fin 4 → Bool) :
    runNote ps (some n) ≤ 1 ∧ (stepNote c ku n).aiFires ≤ 1 :=
  ⟨runNote_le_one ps n, stepNote_aiFires_le_one c ku n⟩

/-- C2: in one racing tick (which resets `keysUsedThisFrame` before the
pass), each lane resolves at most one player hit, even when several
notes sit in the same lane's hit window. -/
theorem lane_resolves_at_most_one_hit_per_tick
    (inp : FrameIn) (s : NMState) (l : Fin 4) :
    (notesFrame { inp with isRacing := true } s).2.laneHits l ≤ 1 := by
  unfold notesFrame
  rw [if_neg (by simp)]
  exact stepNotes_laneHits_le_one _ _ _ _

/-- C3: every score delta is applied as `max(0, old + delta)` (both
`handleScoreUpdate` and the AI callback), so any score reachable from 0
by a sequence of deltas is non-negative, and a -5 penalty at score 0
leaves 0. -/
theorem score_never_negative (ds : List Int) :
    0 ≤ ds.foldl handleScoreUpdate 0 ∧ 0 ≤ ds.foldl onAiScoreUpdate 0 ∧
      handleScoreUpdate 0 (-5) = 0 := by
  refine ⟨foldl_clamped_nonneg ds 0 le_rfl, ?_, by decide⟩
  rw [onAiScoreUpdate_eq]
  exact foldl_clamped_nonneg ds 0 le_rfl

theorem length_spawnNotesGo (nextId : Nat) (spawnZ : ℚ) (aiRolls : Nat → ℚ) :
    ∀ (i : Nat) (ls : List (Fin 4)),
      (spawnNotesGo nextId spawnZ aiRolls i ls).length = ls.length := by
  intro i ls
  induction ls generalizing i with
  | nil => rfl
  | cons lane rest ih =>
    simp only [spawnNotesGo, List.length_cons, ih]

theorem length_spawnNotes (nextId : Nat) (spawnZ : ℚ) (timeLeft : Int)
    (r : SpawnRand) :
    (spawnNotes nextId spawnZ timeLeft r).length = (spawnLanes timeLeft r).length := by
  unfold spawnNotes
  exact length_spawnNotesGo nextId spawnZ r.aiRolls 0 (spawnLanes timeLeft r)

/-- C4: a racing frame spawns notes iff the spawn gate is open — i.e.
iff `timeLeft` is positive, not in the endgame window `timeLeft ≤ 3`,
not in the mid-race pause `58 < timeLeft ≤ 61` (the `timeLeft ≤ 0` case
of the claim is subsumed by `timeLeft ≤ 3`), and the elapsed time since
the last spawn exceeds the spawn interval; and the `nextId` counter
advances exactly by the number of spawned notes. -/
theorem spawn_gating (inp : FrameIn) (s : NMState) :
    (doSpawnB inp s = true ↔
      (0 < inp.timeLeft ∧ ¬ inp.timeLeft ≤ 3 ∧
        ¬ (58 < inp.timeLeft ∧ inp.timeLeft ≤ 61) ∧
        inp.interval < inp.currentTime - s.lastSpawnTime))
  ∧ (notesFrame { inp with isRacing := true } s).1.nextId
      = s.nextId +
        (if doSpawnB inp s then (spawnLanes inp.timeLeft inp.rand).length else 0) := by
  constructor
  · simp only [doSpawnB, canSpawn, isNearEnd, isMidRacePause, Bool.and_eq_true,
      Bool.not_eq_true', Bool.and_eq_false_iff, decide_eq_true_eq,
      decide_eq_false_iff_not]
    tauto
  · unfold notesFrame
    rw [if_neg (by simp)]
    by_cases hd : doSpawnB inp s = true
    · have : doSpawnB { inp with isRacing := true } s = doSpawnB inp s := rfl
      simp [this, hd, length_spawnNotes]
    · simp only [Bool.not_eq_true] at hd
      have : doSpawnB { inp with isRacing := true } s = doSpawnB inp s := rfl
      simp [this, hd]

/-- C10: a note the player never hits is charged the -5 miss penalty
with the miss feedback once its position passes `hitLine + HIT_WINDOW`,
regardless of `willAiHit` or `aiProcessed` — so an AI-scored note the
player ignores still costs the player 5 points (the hit branch is
unreachable there because the hit window is already behind). -/
theorem missed_note_always_charges_player (c : StepCtx) (ku : Fin 4 → Bool)
    (n : Note) (h : c.hitLineZ + HIT_WINDOW < newZ c n) :
    (stepNote c ku n).playerMiss = true ∧ (stepNote c ku n).kept = none ∧
      (stepNote c ku n).playerDelta = -5 := by
  have hzone : inHitZone c n = false := by
    simp only [inHitZone, decide_eq_false_iff_not, not_lt]
    have hw : (0 : ℚ) ≤ HIT_WINDOW := by norm_num [HIT_WINDOW]
    have h1 : HIT_WINDOW ≤ newZ c n - c.hitLineZ := by linarith
    calc HIT_WINDOW ≤ newZ c n - c.hitLineZ := h1
    _ ≤ |newZ c n - c.hitLineZ| := le_abs_self _
  have hhit : isHit c ku n = false := by simp [isHit, hzone]
  have hmiss : isMiss c ku n = true := by simp [isMiss, hhit, h]
  refine ⟨?_, ?_, ?_⟩ <;> simp [stepNote, hhit, hmiss]

/-- Concrete frame inputs for the C10 witness: a fast note well past
the hit line whose AI flag has already fired. -/
def c10Ctx : StepCtx :=
  { hitLineZ := -10, speed := 35, delta := 1, pressedKeys := fun _ => true }

/-- Concrete note for the C10 witness. -/
def c10Note : Note :=
  { id := 0, lane := 0, z := -9, color := "#fffb00"
    willAiHit := true, aiProcessed := true }

theorem missed_note_always_charges_player_witness :
    (stepNote c10Ctx (fun _ => false) c10Note).playerMiss = true ∧
      (stepNote c10Ctx (fun _ => false) c10Note).kept = none ∧
      (stepNote c10Ctx (fun _ => false) c10Note).playerDelta = -5 :=
  missed_note_always_charges_player c10Ctx (fun _ => false) c10Note
    (by norm_num [newZ, c10Ctx, c10Note, HIT_WINDOW])

theorem rampProgression_nonneg (e : ℚ) (h : 0 ≤ e) : 0 ≤ rampProgression e :=
  le_min (div_nonneg h (by norm_num)) zero_le_one

theorem rampProgression_le_one (e : ℚ) : rampProgression e ≤ 1 :=
  min_le_right _ _

theorem rampProgression_mono (e e' : ℚ) (h : e ≤ e') :
    rampProgression e ≤ rampProgression e' :=
  min_le_min ((div_le_div_iff_of_pos_right (by norm_num)).mpr h) le_rfl

theorem rampProgression_eq_one_iff (e : ℚ) :
    rampProgression e = 1 ↔ 80000 ≤ e := by
  unfold rampProgression
  rw [min_eq_right_iff, one_le_div (by norm_num)]

/-- C9: the difficulty ramp is monotone and bounded: `noteSpeed` is
non-decreasing in the elapsed time and stays in [35, 60],
`spawnInterval` is non-increasing and stays in [0.5, 0.8], and each
sits at its cap (60 resp. 0.5) exactly when elapsed ≥ 80000 ms. -/
theorem ramp_monotone_bounded (e e' : ℚ) (h0 : 0 ≤ e) (hee : e ≤ e') :
    rampNoteSpeed e ≤ rampNoteSpeed e'
  ∧ rampSpawnInterval e' ≤ rampSpawnInterval e
  ∧ 35 ≤ rampNoteSpeed e ∧ rampNoteSpeed e ≤ 60
  ∧ 1 / 2 ≤ rampSpawnInterval e ∧ rampSpawnInterval e ≤ 8 / 10
  ∧ (rampNoteSpeed e = 60 ↔ 80000 ≤ e)
  ∧ (rampSpawnInterval e = 1 / 2 ↔ 80000 ≤ e) := by
  have hp0 := rampProgression_nonneg e h0
  have hp1 := rampProgression_le_one e
  have hpm := rampProgression_mono e e' hee
  have hiff := rampProgression_eq_one_iff e
  unfold rampNoteSpeed rampSpawnInterval
  refine ⟨by linarith, by linarith, by linarith, by linarith, by linarith,
    by linarith, ?_, ?_⟩
  · constructor
    · intro h
      exact hiff.mp (by linarith)
    · intro h
      have := hiff.mpr h
      linarith
  · constructor
    · intro h
      exact hiff.mp (by linarith)
    · intro h
      have := hiff.mpr h
      linarith

theorem ramp_monotone_bounded_witness :
    ((0 : ℚ) ≤ 0 ∧ (0 : ℚ) ≤ 80000) ∧
    (rampNoteSpeed 0 ≤ rampNoteSpeed 80000
      ∧ rampSpawnInterval 80000 ≤ rampSpawnInterval 0
      ∧ 35 ≤ rampNoteSpeed 0 ∧ rampNoteSpeed 0 ≤ 60
      ∧ 1 / 2 ≤ rampSpawnInterval 0 ∧ rampSpawnInterval 0 ≤ 8 / 10
      ∧ (rampNoteSpeed 0 = 60 ↔ (80000 : ℚ) ≤ 0)
      ∧ (rampSpawnInterval 0 = 1 / 2 ↔ (80000 : ℚ) ≤ 0)) :=
  ⟨⟨le_rfl, by norm_num⟩,
    ramp_monotone_bounded 0 80000 le_rfl (by norm_num)⟩

/-- C6 counterexample: the code's smoothing factor is NOT clamped.
With playerScore = 400, aiScore = 0, both offsets at 0 and a frame
delta of 1 s, the code moves the player offset to 3.6, overshooting
past its target 1.2, while the claimed update rule
`current + (target - current) * min(1, delta * 3)` would give exactly
1.2. -/
theorem smoothing_step_overshoots :
    (gameSceneStep 400 0 1 { player := 0, ai := 0 }).player = 18 / 5
  ∧ (6 / 5 : ℚ) < 18 / 5
  ∧ (0 : ℚ) + ((6 / 5 : ℚ) - 0) * min 1 ((1 : ℚ) * 3) = 6 / 5 := by
  refine ⟨?_, by norm_num, by norm_num⟩
  norm_num [gameSceneStep, lerp]

theorem lerp_bounds (x y t : ℚ) (h0 : 0 ≤ t) (h1 : t ≤ 1) :
    min x y ≤ lerp x y t ∧ lerp x y t ≤ max x y := by
  unfold lerp
  rcases le_total x y with hxy | hxy
  · rw [min_eq_left hxy, max_eq_right hxy]
    constructor <;> nlinarith [mul_nonneg h0 (sub_nonneg.mpr hxy),
      mul_nonneg (sub_nonneg.mpr h1) (sub_nonneg.mpr hxy)]
  · rw [min_eq_right hxy, max_eq_left hxy]
    constructor <;> nlinarith [mul_nonneg h0 (sub_nonneg.mpr hxy),
      mul_nonneg (sub_nonneg.mpr h1) (sub_nonneg.mpr hxy)]

/-- C6 amended: each tick updates the offsets by the UNclamped lerp
`current + (target - current) * (delta * 3)` (THREE.MathUtils.lerp does
not clamp its factor), with `playerTarget = clamp((p - a)/200, -1, 1) * 1.2`
and `aiTarget` its negation; the offset is guaranteed not to overshoot
its target only under the extra assumption `delta * 3 ≤ 1`
(i.e. delta ≤ 1/3 s). -/
theorem smoothing_step_amended (p a : Int) (delta : ℚ) (off : SceneOff)
    (h0 : 0 ≤ delta) (h1 : delta * 3 ≤ 1) :
    (gameSceneStep p a delta off).player
      = off.player
        + (max (-1) (min 1 (((p : ℚ) - (a : ℚ)) / 200)) * (12 / 10) - off.player)
          * (delta * 3)
  ∧ (gameSceneStep p a delta off).ai
      = off.ai
        + (-(max (-1) (min 1 (((p : ℚ) - (a : ℚ)) / 200))) * (12 / 10) - off.ai)
          * (delta * 3)
  ∧ min off.player (max (-1) (min 1 (((p : ℚ) - (a : ℚ)) / 200)) * (12 / 10))
      ≤ (gameSceneStep p a delta off).player
  ∧ (gameSceneStep p a delta off).player
      ≤ max off.player (max (-1) (min 1 (((p : ℚ) - (a : ℚ)) / 200)) * (12 / 10)) := by
  have hp : (gameSceneStep p a delta off).player
      = lerp off.player (max (-1) (min 1 (((p : ℚ) - (a : ℚ)) / 200)) * (12 / 10))
          (delta * 3) := rfl
  have ha : (gameSceneStep p a delta off).ai
      = lerp off.ai (-(max (-1) (min 1 (((p : ℚ) - (a : ℚ)) / 200))) * (12 / 10))
          (delta * 3) := rfl
  have hb := lerp_bounds off.player
    (max (-1) (min 1 (((p : ℚ) - (a : ℚ)) / 200)) * (12 / 10)) (delta * 3)
    (by positivity) h1
  refine ⟨?_, ?_, ?_, ?_⟩
  · rw [hp]; unfold lerp; ring
  · rw [ha]; unfold lerp; ring
  · rw [hp]; exact hb.1
  · rw [hp]; exact hb.2

theorem smoothing_step_amended_witness :
    ((0 : ℚ) ≤ 1 / 3 ∧ (1 / 3 : ℚ) * 3 ≤ 1) ∧
    ((gameSceneStep 400 0 (1 / 3) { player := 0, ai := 0 }).player
        = (0 : ℚ)
          + (max (-1) (min 1 ((((400 : Int) : ℚ) - ((0 : Int) : ℚ)) / 200)) * (12 / 10) - 0)
            * ((1 / 3) * 3)
      ∧ (gameSceneStep 400 0 (1 / 3) { player := 0, ai := 0 }).ai
        = (0 : ℚ)
          + (-(max (-1) (min 1 ((((400 : Int) : ℚ) - ((0 : Int) : ℚ)) / 200))) * (12 / 10) - 0)
            * ((1 / 3) * 3)
      ∧ min (0 : ℚ) (max (-1) (min 1 ((((400 : Int) : ℚ) - ((0 : Int) : ℚ)) / 200)) * (12 / 10))
          ≤ (gameSceneStep 400 0 (1 / 3) { player := 0, ai := 0 }).player
      ∧ (gameSceneStep 400 0 (1 / 3) { player := 0, ai := 0 }).player
          ≤ max (0 : ℚ) (max (-1) (min 1 ((((400 : Int) : ℚ) - ((0 : Int) : ℚ)) / 200)) * (12 / 10))) :=
  ⟨⟨by norm_num, by norm_num⟩,
    smoothing_step_amended 400 0 (1 / 3) { player := 0, ai := 0 }
      (by norm_num) (by norm_num)⟩

theorem lane2Of_ne (lane1 : Fin 4) (off : Fin 3) : lane2Of lane1 off ≠ lane1 := by
  intro h
  have hv : (lane1.val + 1 + off.val) % 4 = lane1.val := by
    simpa [lane2Of, Fin.ext_iff] using h
  have h4 := lane1.isLt
  have h3 := off.isLt
  omega

/-- C8: a spawn event produces two notes only when `timeLeft ≤ 79` and
the 20% roll succeeds, in which case the notes sit in the first rolled
lane and in `(lane1 + 1 + random(0..2)) mod 4`, which is always a
different lane; otherwise exactly one note spawns in the rolled lane.
Each spawned note carries its own `willAiHit` roll against the 0.70
threshold, decided at spawn, with `aiProcessed` starting false. -/
theorem spawn_event_props (timeLeft : Int) (r : SpawnRand) (nextId : Nat)
    (spawnZ : ℚ) :
    (spawnNotes nextId spawnZ timeLeft r
      = if timeLeft ≤ 79 ∧ r.doubleRoll < 20 / 100 then
          [mkNote nextId r.lane1Roll spawnZ (r.aiRolls 0),
           mkNote (nextId + 1) (lane2Of r.lane1Roll r.lane2Roll) spawnZ (r.aiRolls 1)]
        else
          [mkNote nextId r.lane1Roll spawnZ (r.aiRolls 0)])
  ∧ ((spawnLanes timeLeft r).length = 2 ↔ (timeLeft ≤ 79 ∧ r.doubleRoll < 20 / 100))
  ∧ lane2Of r.lane1Roll r.lane2Roll ≠ r.lane1Roll
  ∧ (mkNote nextId r.lane1Roll spawnZ (r.aiRolls 0)).willAiHit
      = decide (r.aiRolls 0 < 70 / 100)
  ∧ (mkNote nextId r.lane1Roll spawnZ (r.aiRolls 0)).aiProcessed = false := by
  refine ⟨?_, ?_, lane2Of_ne r.lane1Roll r.lane2Roll, rfl, rfl⟩
  · by_cases hc : timeLeft ≤ 79 ∧ r.doubleRoll < 20 / 100
    · rw [if_pos hc]
      unfold spawnNotes spawnLanes
      rw [if_pos hc]
      rfl
    · rw [if_neg hc]
      unfold spawnNotes spawnLanes
      rw [if_neg hc]
      rfl
  · by_cases hc : timeLeft ≤ 79 ∧ r.doubleRoll < 20 / 100
    · unfold spawnLanes
      rw [if_pos hc]
      simpa using hc
    · unfold spawnLanes
      rw [if_neg hc]
      simpa using hc

/-- C7 amended: per tick a note is resolved at most once — it is
removed iff the hit branch or the miss branch fired, never both (the
miss branch also serves as the AI-only pass-through removal).  But
nothing destroys the remaining notes when the race ends: a frame with
`isRacing = false` returns the `NotesManager` state completely
untouched, so emptiness of the active set at race end is not enforced
by the code. -/
theorem note_resolved_once_race_end_freezes
    (c : StepCtx) (ku : Fin 4 → Bool) (n : Note) (inp : FrameIn) (s : NMState) :
    ((stepNote c ku n).kept = none
        ↔ ((stepNote c ku n).playerHit || (stepNote c ku n).playerMiss) = true)
  ∧ ((stepNote c ku n).playerHit && (stepNote c ku n).playerMiss) = false
  ∧ (notesFrame { inp with isRacing := false } s).1 = s := by
  refine ⟨?_, ?_, ?_⟩
  · cases hh : isHit c ku n <;> cases hm : isMiss c ku n <;>
      simp [stepNote, hh, hm]
  · cases hh : isHit c ku n
    · simp [stepNote, hh]
    · have hm : isMiss c ku n = false := by simp [isMiss, hh]
      simp [stepNote, hh, hm]
  · simp [notesFrame]

/-- A live mid-road note for the C7 counterexample. -/
def c7note : Note :=
  { id := 0, lane := 0, z := -50, color := "#fffb00"
    willAiHit := false, aiProcessed := false }

/-- `NotesManager` state holding that one live note while racing. -/
def c7sRace : NMState := { notes := [c7note], lastSpawnTime := 1, nextId := 1 }

/-- A racing frame over that state: no key pressed, spawn interval not
yet elapsed, note far from the hit line — the note survives. -/
def c7Inp1 : FrameIn :=
  { isRacing := true, currentTime := 3 / 2, delta := 1 / 100, timeLeft := 100
    interval := 8 / 10, speed := 35, spawnZ := -90, hitLineZ := -10
    pressedKeys := fun _ => false
    rand := { doubleRoll := 1 / 2, lane1Roll := 0, lane2Roll := 0
              aiRolls := fun _ => 1 } }

/-- The next frame with the race over (`isRacing = false`). -/
def c7Inp2 : FrameIn := { c7Inp1 with isRacing := false, currentTime := 2 }

/-- C7 counterexample: a note alive while racing is still in the active
set after a race-ended (`isRacing = false`) frame — the claimed "all
remaining active notes are destroyed when the race ends" has no
counterpart in the code, so a race-ended state with a nonempty active
note set is reachable. -/
theorem race_end_does_not_clear_notes :
    (notesFrame c7Inp1 c7sRace).1.notes.length = 1
  ∧ (notesFrame c7Inp2 (notesFrame c7Inp1 c7sRace).1).1.notes.length = 1 := by
  have h1 : (notesFrame c7Inp1 c7sRace).1.notes.length = 1 := by
    norm_num [notesFrame, c7Inp1, c7sRace, c7note, doSpawnB, canSpawn,
      isNearEnd, isMidRacePause, stepNotes, stepNote, isHit, isMiss,
      inHitZone, aiFire1, aiFire2, aiProc1, aiProc2, newZ, HIT_WINDOW,
      emptyPass]
  refine ⟨h1, ?_⟩
  have h2 : (notesFrame c7Inp2 (notesFrame c7Inp1 c7sRace).1).1
      = (notesFrame c7Inp1 c7sRace).1 := by
    have : c7Inp2.isRacing = false := rfl
    simp [notesFrame, this]
  rw [h2, h1]

/-- C5 is violated by the code: after two resets (generation 1 at time
0, generation 2 at time 1000), the generation-1 countdown-start timeout
is still pending — it was never pushed into the `timers` array that
the countdown effect cleanup clears, and it checks no generation — and
it is the earliest pending callback.  Firing it mutates race state
(sets the countdown image) even though `raceId` is already 2, and it
schedules a generation-1 `goRacing` step whose firing sets
`isRacing := true`. -/
theorem stale_countdown_callback_fires :
    c5State.raceId = 2
  ∧ c5State.countdownImg = none
  ∧ c5Stale ∈ c5State.pending
  ∧ c5Stale.gen ≠ c5State.raceId
  ∧ (∀ c ∈ c5State.pending, c5Stale.fireAt ≤ c.fireAt)
  ∧ (fireCb c5Stale c5State).countdownImg = some "3.png"
  ∧ (⟨1, 7000, CbAction.goRacing, true⟩ : Cb) ∈ (fireCb c5Stale c5State).pending
  ∧ (∀ st : AppSchedState,
      (runAction ⟨1, 7000, CbAction.goRacing, true⟩ st).isRacing = true) := by
  refine ⟨rfl, rfl, by decide, by decide, by decide, by decide, by decide,
    fun st => rfl⟩

end RhythmRace
